import Mathlib

/-!
Verification of the streak/session accounting engine of the PMP exam-prep
mobile application (source files: app/practice.tsx, app/stats.tsx).

The embedding below translates the business logic of the two screens into
Lean definitions:

* the per-question practice flow (`handleAnswerSelect`, `submitAnswer`,
  `nextQuestion`) and the session-completion accounting
  (`completeSession` updating or creating the User Progress Record);
* the session-complete score display (`displayCorrectCount`,
  `sessionScorer`);
* the per-category aggregation of the stats screen
  (`calculateCategoryStats`).

Calendar dates are the sortable `YYYY-MM-DD` strings the code manipulates;
the JavaScript relational comparison on such strings is lexicographic by
code unit, embedded here as `strLt` over the character data of the string.
Fields that are pure presentation or identity (question text, options,
explanation text, email, display name, timestamps) are omitted: no modeled
computation reads them.
-/

namespace PmpApp

/-- Lexicographic order on character lists, matching the JavaScript
relational comparison of strings by code unit (all strings in play are
ASCII dates). A strict prefix is smaller. -/
def charListLt : List Char → List Char → Bool
  | _, [] => false
  | [], _ :: _ => true
  | a :: as, b :: bs => if a < b then true else if b < a then false else charListLt as bs

/-- JavaScript string comparison `a < b`, lexicographic on the characters. -/
def strLt (a b : String) : Bool := charListLt a.data b.data

/-- JavaScript truthiness test `!lastStudyDate`: the field is falsy when it
is absent (`undefined`/`null`) or the empty string. -/
def jsFalsy : Option String → Bool
  | none => true
  | some s => s.data.isEmpty

/-- Comparison `lastStudyDate < yesterdayStr` on a possibly-absent field.
In the source this comparison is only reached when the field is truthy
(short-circuit `||`); a JavaScript relational comparison against
`undefined` is false, matching the `none` case. -/
def optStrLt : Option String → String → Bool
  | none, _ => false
  | some s, t => strLt s t

/-- Question Record, restricted to the fields the modeled logic reads:
`id` (catalog lookup key), `correctAnswer` (one of the option letters) and
`category` (stats aggregation key). -/
structure Question where
  id : String
  correctAnswer : String
  category : String
deriving DecidableEq

/-- In-memory per-question answer of the practice screen
(interface `UserAnswer` of practice.tsx). -/
structure UserAnswer where
  questionId : String
  selectedAnswer : String
  isCorrect : Bool
deriving DecidableEq

/-- User Progress Record (the `users` collection row), restricted to the
fields the Streak Accumulator reads and writes. -/
structure UserRecord where
  currentStreak : Nat
  longestStreak : Nat
  lastStudyDate : Option String
  totalQuestionsAnswered : Nat
  correctAnswers : Nat
deriving DecidableEq

/-- Local state of the practice screen (the `useState` hooks of
practice.tsx that the accounting logic reads). -/
structure PracticeState where
  questions : List Question
  currentQuestionIndex : Nat
  selectedAnswer : Option String
  showExplanation : Bool
  userAnswers : List UserAnswer
deriving DecidableEq

/-- Initial state of a practice run after the questions have loaded. -/
def initialPracticeState (qs : List Question) : PracticeState :=
  { questions := qs
    currentQuestionIndex := 0
    selectedAnswer := none
    showExplanation := false
    userAnswers := [] }

/-- `handleAnswerSelect`: ignores the tap once the explanation is shown,
otherwise records the selected option letter. -/
def handleAnswerSelect (s : PracticeState) (answer : String) : PracticeState :=
  if s.showExplanation then s else { s with selectedAnswer := some answer }

/-- Result of `submitAnswer`: the new screen state plus whether the Answer
Record write to the backend succeeded. -/
structure SubmitResult where
  state : PracticeState
  persisted : Bool
deriving DecidableEq

/-- `submitAnswer` (practice.tsx lines 79-109). The answer is appended to
the in-memory list, then the backend write is attempted inside a
`try`/`catch` whose handler only logs, and the explanation is shown
regardless. `writeOk` models whether the `userAnswers.create` call
succeeded; it influences nothing but the `persisted` flag. The early
return when no answer is selected is the `!selectedAnswer` guard; the
out-of-range question case never occurs in the screen flow. -/
def submitAnswer (s : PracticeState) (writeOk : Bool) : SubmitResult :=
  match s.selectedAnswer with
  | none => { state := s, persisted := false }
  | some sel =>
    match s.questions[s.currentQuestionIndex]? with
    | none => { state := s, persisted := false }
    | some q =>
      let ua : UserAnswer :=
        { questionId := q.id, selectedAnswer := sel, isCorrect := sel == q.correctAnswer }
      { state := { s with userAnswers := s.userAnswers ++ [ua], showExplanation := true }
        persisted := writeOk }

/-- The session tally of `completeSession` (practice.tsx lines 124-125):
the number of correct answers in `userAnswers` plus one more when the
still-selected final answer matches the current question. -/
def sessionCorrectCount (s : PracticeState) : Nat :=
  (s.userAnswers.filter (fun a => a.isCorrect)).length +
    (match s.selectedAnswer, s.questions[s.currentQuestionIndex]? with
     | some sel, some q => if sel == q.correctAnswer then 1 else 0
     | _, _ => 0)

/-- The streak computation of `completeSession` (practice.tsx lines
145-156), an if/else-if chain over the stored `lastStudyDate` compared
with the `today` and `yesterdayStr` date strings. When no branch matches
(for example a future date), the initializer `existingUser.currentStreak`
is kept. -/
def streakUpdate (lastStudyDate : Option String) (today yesterdayStr : String)
    (currentStreak : Nat) : Nat :=
  if lastStudyDate = some today then currentStreak
  else if lastStudyDate = some yesterdayStr then currentStreak + 1
  else if jsFalsy lastStudyDate || optStrLt lastStudyDate yesterdayStr then 1
  else currentStreak

/-- The `users.update` payload of `completeSession` (practice.tsx lines
160-167) applied to the existing record. -/
def updateExistingUser (u : UserRecord) (today yesterdayStr : String)
    (correctCount totalQuestions : Nat) : UserRecord :=
  let newStreak := streakUpdate u.lastStudyDate today yesterdayStr u.currentStreak
  { currentStreak := newStreak
    longestStreak := max u.longestStreak newStreak
    lastStudyDate := some today
    totalQuestionsAnswered := u.totalQuestionsAnswered + totalQuestions
    correctAnswers := u.correctAnswers + correctCount }

/-- The `users.create` payload of `completeSession` (practice.tsx lines
170-181) for a first-time user. -/
def createUserRecord (today : String) (correctCount totalQuestions : Nat) : UserRecord :=
  { currentStreak := 1
    longestStreak := 1
    lastStudyDate := some today
    totalQuestionsAnswered := totalQuestions
    correctAnswers := correctCount }

/-- The Streak Accumulator: `completeSession` either updates the existing
User Progress Record or creates a fresh one. -/
def completeSessionRecord (prior : Option UserRecord) (today yesterdayStr : String)
    (correctCount totalQuestions : Nat) : UserRecord :=
  match prior with
  | some u => updateExistingUser u today yesterdayStr correctCount totalQuestions
  | none => createUserRecord today correctCount totalQuestions

/-- `completeSession` run on the screen state: the tally is read from the
state (practice.tsx lines 124-126) and merged into the prior record. -/
def completeSession (s : PracticeState) (prior : Option UserRecord)
    (today yesterdayStr : String) : UserRecord :=
  completeSessionRecord prior today yesterdayStr (sessionCorrectCount s) s.questions.length

/-- Outcome of `nextQuestion`: either the screen advances to the next
question, or the session completes and the progress record is written. -/
inductive NextOutcome where
  | advanced (s : PracticeState)
  | completed (record : UserRecord)
deriving DecidableEq

/-- `nextQuestion` (practice.tsx lines 111-119): advance while questions
remain, otherwise complete the session. -/
def nextQuestion (s : PracticeState) (prior : Option UserRecord)
    (today yesterdayStr : String) : NextOutcome :=
  if s.currentQuestionIndex < s.questions.length - 1 then
    NextOutcome.advanced
      { s with currentQuestionIndex := s.currentQuestionIndex + 1
               selectedAnswer := none
               showExplanation := false }
  else
    NextOutcome.completed (completeSession s prior today yesterdayStr)

/-- The correct-count shown on the session-complete screen
(practice.tsx line 244): `userAnswers.filter(a => a.isCorrect).length`. -/
def displayCorrectCount (s : PracticeState) : Nat :=
  (s.userAnswers.filter (fun a => a.isCorrect)).length

/-- Output of the Session Scorer. `accuracyPercent` is `none` when the
JavaScript expression `Math.round((c / t) * 100)` evaluates to `NaN`
(division of zero by zero). -/
structure SessionScore where
  correctCount : Nat
  totalCount : Nat
  accuracyPercent : Option Nat
deriving DecidableEq

/-!
JavaScript evaluates `(c / t) * 100` in IEEE-754 binary64: the exact
quotient `c / t` is rounded to 53 significant bits (nearest, ties to
even), the product with 100 is rounded again, and `Math.round` then takes
the closest integer to the exact value of that double, ties toward
positive infinity (ECMA-262). The definitions below model this pipeline
exactly for the counts the program produces (`c <= t`, both far below
2^53, quotient in the normal range), using an unbounded exponent; a
double value is carried as a significand together with a binary
exponent. -/

/-- Floor of the base-2 logarithm, computed with structural fuel so that
it reduces inside the kernel. -/
def log2f : Nat → Nat → Nat
  | 0, _ => 0
  | fuel + 1, n => if 2 ≤ n then log2f fuel (n / 2) + 1 else 0

/-- Floor of the base-2 logarithm of a positive number. -/
def natLog2 (n : Nat) : Nat := log2f n n

/-- Round the rational `N / D` (with `D > 0`) to the nearest integer,
ties to even: the IEEE-754 rounding of a scaled significand. -/
def roundNearestEven (N D : Nat) : Nat :=
  let q := N / D
  let r := N % D
  if 2 * r < D then q
  else if D < 2 * r then q + 1
  else if q % 2 = 0 then q else q + 1

/-- The binary64 value of the exact rational `N / D` (both positive):
the significand is the 53-bit nearest-even rounding of the quotient,
returned with its binary exponent, so the value is `fst * 2 ^ snd`. -/
def roundRat53 (N D : Nat) : Nat × Int :=
  let s0 : Int := 52 + (natLog2 D : Int) - (natLog2 N : Int)
  let q0 : Nat := if 0 ≤ s0 then N * 2 ^ s0.toNat / D else N / (D * 2 ^ (-s0).toNat)
  let s : Int := if q0 < 2 ^ 52 then s0 + 1 else s0
  let m : Nat := if 0 ≤ s then roundNearestEven (N * 2 ^ s.toNat) D
                 else roundNearestEven N (D * 2 ^ (-s).toNat)
  (m, -s)

/-- The binary64 product of a double with significand `m` in
`[2^52, 2^53]` and the constant 100: the exact integer `m * 100` has 59
or 60 bits, so it is rounded nearest-even at a shift of 6 or 7; the value
is `fst * 2 ^ snd` relative to the exponent of `m`. -/
def mul100round (m : Nat) : Nat × Nat :=
  let M := m * 100
  let k := if M < 2 ^ 59 then 6 else 7
  (roundNearestEven M (2 ^ k), k)

/-- `Math.round` applied to the non-negative double `m * 2 ^ e`: the
closest integer to its exact value, ties toward positive infinity. -/
def roundHalfUpInt (m : Nat) (e : Int) : Nat :=
  if 0 ≤ e then m * 2 ^ e.toNat
  else
    let k := (-e).toNat
    let q := m / 2 ^ k
    if 2 ^ k ≤ 2 * (m % 2 ^ k) then q + 1 else q

/-- `Math.round((c / t) * 100)` for `t > 0` in binary64 arithmetic:
divide, multiply by 100, round. For `c = 0` every step is exact and the
result is 0. -/
def jsPercentRoundPos (c t : Nat) : Nat :=
  if c = 0 then 0
  else
    let q := roundRat53 c t
    let p := mul100round q.1
    roundHalfUpInt p.1 (q.2 + (p.2 : Int))

/-- `Math.round((c / t) * 100)` with the `t = 0` case mapped to `none`
(the division yields a non-finite value, `NaN` for the `c = 0` shape the
scorer produces, which `Math.round` propagates). -/
def jsPercentRound (c t : Nat) : Option Nat :=
  if t = 0 then none else some (jsPercentRoundPos c t)

/-- The Session Scorer (practice.tsx lines 243-246): given the ordered
correctness outcomes of one run. On the session-complete screen
`userAnswers` holds exactly one entry per question, so the
`questions.length` used as the total equals the number of outcomes. -/
def sessionScorer (outcomes : List Bool) : SessionScore :=
  { correctCount := (outcomes.filter (fun a => a)).length
    totalCount := outcomes.length
    accuracyPercent :=
      jsPercentRound (outcomes.filter (fun a => a)).length outcomes.length }

/-- Round-half-up of the fraction `num / den` (for `den > 0`), written via
quotient and remainder, independently of the formula used in
`jsRoundPercent`. -/
def specRoundHalfUp (num den : Nat) : Nat :=
  num / den + (if den ≤ 2 * (num % den) then 1 else 0)

/-- Modelled from the spec: the Session Scorer contract of section 4.1,
written from the words of the specification (count of true outcomes,
sequence length, round-half-up percentage, defined as 0 when the total is
0) for comparison with `sessionScorer`. -/
def sessionScorerSpec (outcomes : List Bool) : SessionScore :=
  { correctCount := outcomes.count true
    totalCount := outcomes.length
    accuracyPercent :=
      if outcomes.length = 0 then some 0
      else some (specRoundHalfUp (100 * outcomes.count true) outcomes.length) }

/-- Answer Record as read by the stats screen (interface `UserAnswer` of
stats.tsx): the referenced question and the numeric correctness flag
stored in the database. -/
structure AnswerRecord where
  questionId : String
  isCorrect : Int
deriving DecidableEq

/-- Per-category summary produced by `calculateCategoryStats`. -/
structure CategoryStats where
  category : String
  total : Nat
  correct : Nat
  accuracy : Nat
deriving DecidableEq

/-- Lookup in `questionMap` (stats.tsx line 129): a JavaScript `Map` built
from the catalog list keeps the last entry for a duplicated id, which the
left fold reproduces. -/
def questionLookup (questions : List Question) (qid : String) : Option Question :=
  questions.foldl (fun acc q => if q.id = qid then some q else acc) none

/-- One `categoryMap.set` step (stats.tsx lines 136-141) on the
insertion-ordered association list: an existing category is updated in
place, a new one is appended. -/
def bumpCategory (m : List (String × Nat × Nat)) (cat : String) (inc : Nat) :
    List (String × Nat × Nat) :=
  match m with
  | [] => [(cat, 1, inc)]
  | e :: rest =>
    if e.1 = cat then (e.1, e.2.1 + 1, e.2.2 + inc) :: rest
    else e :: bumpCategory rest cat inc

/-- One iteration of the `answers.forEach` loop (stats.tsx lines 132-143):
an answer whose question is absent from the catalog is skipped, otherwise
its category tally is bumped, counting the answer as correct when the
stored number is positive. -/
def addAnswer (questions : List Question) (m : List (String × Nat × Nat))
    (a : AnswerRecord) : List (String × Nat × Nat) :=
  match questionLookup questions a.questionId with
  | none => m
  | some q => bumpCategory m q.category (if 0 < a.isCorrect then 1 else 0)

/-- Whether an answer is attributed to a category at all, i.e. its
referenced question is present in the supplied catalog. -/
def answerFound (questions : List Question) (a : AnswerRecord) : Bool :=
  (questionLookup questions a.questionId).isSome

/-- The per-category record built from a map entry (stats.tsx lines
145-150), with accuracy `total > 0 ? Math.round((correct / total) * 100)
: 0`, the rounding performed on the binary64 value of the quotient. -/
def toCategoryStats (e : String × Nat × Nat) : CategoryStats :=
  { category := e.1
    total := e.2.1
    correct := e.2.2
    accuracy := if 0 < e.2.1 then jsPercentRoundPos e.2.2 e.2.1 else 0 }

/-- The Category Aggregator `calculateCategoryStats` (stats.tsx lines
122-156): fold the answers into the category map, compute each accuracy,
and sort by `total` descending with the stable array sort
(`.sort((a, b) => b.total - a.total)`). -/
def calculateCategoryStats (answers : List AnswerRecord) (questions : List Question) :
    List CategoryStats :=
  let entries := answers.foldl (addAnswer questions) []
  let stats := entries.map toCategoryStats
  stats.mergeSort (fun a b => decide (b.total ≤ a.total))

/-- Sum of the `total` fields of an aggregation result. -/
def sumTotals (l : List CategoryStats) : Nat := (l.map (fun e => e.total)).sum

/-! Order facts about the lexicographic string comparison. -/

theorem charListLt_irrefl (l : List Char) : charListLt l l = false := by
  induction l with
  | nil => rfl
  | cons a as ih => simp [charListLt, ih]

theorem charListLt_trans : ∀ {x y z : List Char},
    charListLt x y = true → charListLt y z = true → charListLt x z = true
  | _, y, [], _, h2 => by simp [charListLt] at h2
  | [], b :: bs, c :: cs, _, _ => by simp [charListLt]
  | a :: as, [], c :: cs, h1, _ => by simp [charListLt] at h1
  | a :: as, b :: bs, c :: cs, h1, h2 => by
    simp only [charListLt] at h1 h2 ⊢
    by_cases hab : a < b
    · by_cases hbc : b < c
      · simp [lt_trans hab hbc]
      · by_cases hcb : c < b
        · simp [hbc, hcb] at h2
        · have hbc' : b = c := le_antisymm (not_lt.mp hcb) (not_lt.mp hbc)
          subst hbc'
          simp [hab]
    · by_cases hba : b < a
      · simp [hab, hba] at h1
      · have hab' : a = b := le_antisymm (not_lt.mp hba) (not_lt.mp hab)
        subst hab'
        by_cases hac : a < c
        · simp [hac]
        · by_cases hca : c < a
          · simp [hac, hca] at h2
          · have h1' : charListLt as bs = true := by simpa [lt_irrefl] using h1
            have h2' : charListLt bs cs = true := by simpa [hac, hca] using h2
            simpa [hac, hca] using charListLt_trans h1' h2'

theorem strLt_trans {x y z : String} (h1 : strLt x y = true) (h2 : strLt y z = true) :
    strLt x z = true :=
  charListLt_trans h1 h2

theorem strLt_ne {x y : String} (h : strLt x y = true) : x ≠ y := by
  intro he
  subst he
  rw [strLt, charListLt_irrefl] at h
  exact Bool.false_ne_true h

set_option maxRecDepth 100000 in
set_option maxHeartbeats 20000000 in
/-- For every tally with `correct <= total <= 100` whose exact percentage
is not an exact half-integer, the binary64 evaluation of
`Math.round((correct / total) * 100)` agrees with round-half-up of the
exact rational percentage: the two floating-point roundings perturb the
value by far less than its distance to the half-integer boundary. The
exact half-integer cases are excluded because the double quotient can
fall on either side (23 of 40 lands below). Checked exhaustively over the
finite domain. -/
theorem jsPercent_agrees_off_ties : ∀ t, t < 101 → ∀ c, c < t + 1 →
    (0 < t → 2 * (100 * c % t) ≠ t →
      jsPercentRoundPos c t = specRoundHalfUp (100 * c) t) := by
  decide

/-- C1: the record written by `completeSession` for a one-question session
answered correctly, starting from no prior record. The in-memory
`userAnswers` list already holds the submitted final answer, and the
`+ (selectedAnswer === ... ? 1 : 0)` term of lines 124-125 counts it a
second time, so the session tally is 2 correct out of 1 answered and the
created record violates `correctAnswers <= totalQuestionsAnswered`,
while the session-complete screen displays only 1 correct. -/
theorem completeSession_double_counts_final_answer :
    (nextQuestion
        (submitAnswer (handleAnswerSelect
          (initialPracticeState [{ id := "q1", correctAnswer := "A", category := "People" }])
          "A") true).state
        none "2024-03-01" "2024-02-29" =
      NextOutcome.completed
        { currentStreak := 1, longestStreak := 1, lastStudyDate := some "2024-03-01",
          totalQuestionsAnswered := 1, correctAnswers := 2 }) ∧
    displayCorrectCount
        (submitAnswer (handleAnswerSelect
          (initialPracticeState [{ id := "q1", correctAnswer := "A", category := "People" }])
          "A") true).state = 1 ∧
    (completeSession
        (submitAnswer (handleAnswerSelect
          (initialPracticeState [{ id := "q1", correctAnswer := "A", category := "People" }])
          "A") true).state
        none "2024-03-01" "2024-02-29").totalQuestionsAnswered <
      (completeSession
        (submitAnswer (handleAnswerSelect
          (initialPracticeState [{ id := "q1", correctAnswer := "A", category := "People" }])
          "A") true).state
        none "2024-03-01" "2024-02-29").correctAnswers := by
  decide

/-- C2 (counterexample): a prior record whose `lastStudyDate` is the
future date `"2024-02-01"` relative to today `"2024-01-10"` satisfies
every hypothesis of the claim (not today, not yesterday, set, not earlier
than yesterday), yet `completeSession` leaves `currentStreak` at 5 instead
of resetting it to 1: no branch of the if/else-if chain matches a date
that is not lexicographically smaller than yesterday. -/
theorem future_date_streak_not_reset :
    (("2024-02-01" : String) ≠ "2024-01-10") ∧
    (("2024-02-01" : String) ≠ "2024-01-09") ∧
    (("2024-02-01" : String).data.isEmpty = false) ∧
    (strLt "2024-02-01" "2024-01-09" = false) ∧
    (updateExistingUser
        { currentStreak := 5, longestStreak := 8, lastStudyDate := some "2024-02-01",
          totalQuestionsAnswered := 50, correctAnswers := 30 }
        "2024-01-10" "2024-01-09" 4 5).currentStreak = 5 ∧
    ¬ (updateExistingUser
        { currentStreak := 5, longestStreak := 8, lastStudyDate := some "2024-02-01",
          totalQuestionsAnswered := 50, correctAnswers := 30 }
        "2024-01-10" "2024-01-09" 4 5).currentStreak = 1 := by
  decide

/-- C2 (amended): a set `lastStudyDate` that is neither today nor
yesterday and not lexicographically earlier than yesterday (for example a
future date) matches no branch of the streak chain, so `currentStreak` is
left unchanged; the date, totals and longest streak are still updated. -/
theorem other_date_leaves_streak_unchanged (u : UserRecord)
    (today yesterdayStr s : String) (cc tq : Nat)
    (h1 : u.lastStudyDate = some s) (h2 : s ≠ today) (h3 : s ≠ yesterdayStr)
    (h4 : s.data.isEmpty = false) (h5 : strLt s yesterdayStr = false) :
    updateExistingUser u today yesterdayStr cc tq =
      { currentStreak := u.currentStreak
        longestStreak := max u.longestStreak u.currentStreak
        lastStudyDate := some today
        totalQuestionsAnswered := u.totalQuestionsAnswered + tq
        correctAnswers := u.correctAnswers + cc } := by
  simp [updateExistingUser, streakUpdate, h1, h2, h3, jsFalsy, optStrLt, h4, h5]

/-- C2 (witness): the amended theorem applied to the future-date record of
the counterexample. -/
theorem other_date_leaves_streak_unchanged_witness :
    updateExistingUser
        { currentStreak := 5, longestStreak := 8, lastStudyDate := some "2024-02-01",
          totalQuestionsAnswered := 50, correctAnswers := 30 }
        "2024-01-10" "2024-01-09" 4 5 =
      { currentStreak := 5, longestStreak := max 8 5, lastStudyDate := some "2024-01-10",
        totalQuestionsAnswered := 50 + 5, correctAnswers := 30 + 4 } :=
  other_date_leaves_streak_unchanged _ _ _ _ _ _ rfl (by decide) (by decide)
    (by decide) (by decide)

/-- C3: after any Streak Accumulator invocation, from any prior state
(including none), the produced record satisfies
`longestStreak >= currentStreak`: the update writes
`max(previous longestStreak, new currentStreak)` and the create writes
1 and 1. -/
theorem longestStreak_ge_currentStreak (prior : Option UserRecord)
    (today yesterdayStr : String) (cc tq : Nat) :
    (completeSessionRecord prior today yesterdayStr cc tq).currentStreak ≤
      (completeSessionRecord prior today yesterdayStr cc tq).longestStreak := by
  cases prior with
  | none => simp [completeSessionRecord, createUserRecord]
  | some u =>
    simp only [completeSessionRecord, updateExistingUser]
    exact Nat.le_max_right _ _

/-- C4: when the stored `lastStudyDate` already equals today, the first
branch of the chain fires and `currentStreak` is untouched while the
totals still grow by the session tally; a second invocation the same day
(the first one has set `lastStudyDate` to today) again freezes the streak
and accumulates both tallies. -/
theorem same_day_freezes_streak_accumulates_totals (u : UserRecord)
    (today yesterdayStr : String) (cc1 tq1 cc2 tq2 : Nat)
    (h : u.lastStudyDate = some today) :
    (updateExistingUser u today yesterdayStr cc1 tq1).currentStreak = u.currentStreak ∧
    (updateExistingUser u today yesterdayStr cc1 tq1).totalQuestionsAnswered =
      u.totalQuestionsAnswered + tq1 ∧
    (updateExistingUser u today yesterdayStr cc1 tq1).correctAnswers =
      u.correctAnswers + cc1 ∧
    (updateExistingUser (updateExistingUser u today yesterdayStr cc1 tq1)
        today yesterdayStr cc2 tq2).currentStreak = u.currentStreak ∧
    (updateExistingUser (updateExistingUser u today yesterdayStr cc1 tq1)
        today yesterdayStr cc2 tq2).totalQuestionsAnswered =
      u.totalQuestionsAnswered + tq1 + tq2 ∧
    (updateExistingUser (updateExistingUser u today yesterdayStr cc1 tq1)
        today yesterdayStr cc2 tq2).correctAnswers =
      u.correctAnswers + cc1 + cc2 := by
  simp [updateExistingUser, streakUpdate, h]

/-- C4 (witness): two same-day sessions on a concrete record. -/
theorem same_day_freezes_streak_accumulates_totals_witness :
    (updateExistingUser
        { currentStreak := 3, longestStreak := 7, lastStudyDate := some "2024-01-10",
          totalQuestionsAnswered := 50, correctAnswers := 30 }
        "2024-01-10" "2024-01-09" 4 5).currentStreak = 3 ∧
    (updateExistingUser
        { currentStreak := 3, longestStreak := 7, lastStudyDate := some "2024-01-10",
          totalQuestionsAnswered := 50, correctAnswers := 30 }
        "2024-01-10" "2024-01-09" 4 5).totalQuestionsAnswered = 50 + 5 ∧
    (updateExistingUser
        { currentStreak := 3, longestStreak := 7, lastStudyDate := some "2024-01-10",
          totalQuestionsAnswered := 50, correctAnswers := 30 }
        "2024-01-10" "2024-01-09" 4 5).correctAnswers = 30 + 4 ∧
    (updateExistingUser (updateExistingUser
        { currentStreak := 3, longestStreak := 7, lastStudyDate := some "2024-01-10",
          totalQuestionsAnswered := 50, correctAnswers := 30 }
        "2024-01-10" "2024-01-09" 4 5) "2024-01-10" "2024-01-09" 2 5).currentStreak = 3 ∧
    (updateExistingUser (updateExistingUser
        { currentStreak := 3, longestStreak := 7, lastStudyDate := some "2024-01-10",
          totalQuestionsAnswered := 50, correctAnswers := 30 }
        "2024-01-10" "2024-01-09" 4 5) "2024-01-10" "2024-01-09" 2 5).totalQuestionsAnswered =
      50 + 5 + 5 ∧
    (updateExistingUser (updateExistingUser
        { currentStreak := 3, longestStreak := 7, lastStudyDate := some "2024-01-10",
          totalQuestionsAnswered := 50, correctAnswers := 30 }
        "2024-01-10" "2024-01-09" 4 5) "2024-01-10" "2024-01-09" 2 5).correctAnswers =
      30 + 4 + 2 :=
  same_day_freezes_streak_accumulates_totals _ _ _ 4 5 2 5 rfl

/-- C5: when the stored `lastStudyDate` equals the yesterday string (and
yesterday differs from today, as it does for real consecutive civil
dates), the streak is incremented and the longest streak becomes the
maximum of the previous longest and the new value. -/
theorem yesterday_increments_streak (u : UserRecord)
    (today yesterdayStr : String) (cc tq : Nat)
    (h1 : u.lastStudyDate = some yesterdayStr) (h2 : yesterdayStr ≠ today) :
    updateExistingUser u today yesterdayStr cc tq =
      { currentStreak := u.currentStreak + 1
        longestStreak := max u.longestStreak (u.currentStreak + 1)
        lastStudyDate := some today
        totalQuestionsAnswered := u.totalQuestionsAnswered + tq
        correctAnswers := u.correctAnswers + cc } := by
  simp [updateExistingUser, streakUpdate, h1, h2]

/-- C5 (witness): the scenario of the specification, prior record
`{currentStreak: 5, longestStreak: 5, lastStudyDate: "2024-01-09"}` with
today `"2024-01-10"`. -/
theorem yesterday_increments_streak_witness :
    updateExistingUser
        { currentStreak := 5, longestStreak := 5, lastStudyDate := some "2024-01-09",
          totalQuestionsAnswered := 40, correctAnswers := 25 }
        "2024-01-10" "2024-01-09" 4 5 =
      { currentStreak := 5 + 1, longestStreak := max 5 (5 + 1),
        lastStudyDate := some "2024-01-10",
        totalQuestionsAnswered := 40 + 5, correctAnswers := 25 + 4 } :=
  yesterday_increments_streak _ _ _ _ _ rfl (by decide)

/-- C6: when the stored `lastStudyDate` is unset or lexicographically
earlier than the yesterday string (with yesterday itself earlier than
today, as for real civil dates), the streak resets to 1, the longest
streak becomes `max(previous longestStreak, 1)`, the date becomes today
and the totals accumulate. -/
theorem missed_day_resets_streak (u : UserRecord)
    (today yesterdayStr : String) (cc tq : Nat)
    (hd : strLt yesterdayStr today = true)
    (h : u.lastStudyDate = none ∨
      ∃ s, u.lastStudyDate = some s ∧ strLt s yesterdayStr = true) :
    updateExistingUser u today yesterdayStr cc tq =
      { currentStreak := 1
        longestStreak := max u.longestStreak 1
        lastStudyDate := some today
        totalQuestionsAnswered := u.totalQuestionsAnswered + tq
        correctAnswers := u.correctAnswers + cc } := by
  rcases h with h | ⟨s, hs, hlt⟩
  · simp [updateExistingUser, streakUpdate, h, jsFalsy]
  · have hne1 : s ≠ yesterdayStr := strLt_ne hlt
    have hne2 : s ≠ today := strLt_ne (strLt_trans hlt hd)
    simp [updateExistingUser, streakUpdate, hs, hne1, hne2, optStrLt, hlt]

/-- C6 (witness): the gap scenario of the specification, prior record
`{currentStreak: 5, longestStreak: 8, lastStudyDate: "2024-01-05"}` with
today `"2024-01-10"`. -/
theorem missed_day_resets_streak_witness :
    updateExistingUser
        { currentStreak := 5, longestStreak := 8, lastStudyDate := some "2024-01-05",
          totalQuestionsAnswered := 50, correctAnswers := 30 }
        "2024-01-10" "2024-01-09" 4 5 =
      { currentStreak := 1, longestStreak := max 8 1,
        lastStudyDate := some "2024-01-10",
        totalQuestionsAnswered := 50 + 5, correctAnswers := 30 + 4 } :=
  missed_day_resets_streak _ _ _ _ _ (by decide)
    (Or.inr ⟨"2024-01-05", rfl, by decide⟩)

/-- C7: with no prior record, `completeSession` creates the record with
streaks 1, `lastStudyDate = today` and the session tally as totals; in
particular the spec scenario with today `"2024-03-01"` and tally
`{correct: 4, total: 5}`. -/
theorem first_session_creates_record :
    (∀ (today yesterdayStr : String) (cc tq : Nat),
      completeSessionRecord none today yesterdayStr cc tq =
        { currentStreak := 1, longestStreak := 1, lastStudyDate := some today,
          totalQuestionsAnswered := tq, correctAnswers := cc }) ∧
    completeSessionRecord none "2024-03-01" "2024-02-29" 4 5 =
      { currentStreak := 1, longestStreak := 1, lastStudyDate := some "2024-03-01",
        totalQuestionsAnswered := 5, correctAnswers := 4 } :=
  ⟨fun _ _ _ _ => rfl, rfl⟩

theorem filter_self_length_eq_count (l : List Bool) :
    (l.filter (fun a => a)).length = l.count true := by
  induction l with
  | nil => rfl
  | cons a l ih => cases a <;> simp [List.count_cons, ih]

/-- C8 (counterexample): two inputs refute the claimed accuracy formula.
On the empty outcome sequence the unguarded
`Math.round((correctCount / totalQuestions) * 100)` divides zero by zero
and yields `NaN`, not 0. On 40 outcomes with 23 true the exact percentage
is 57.5, so round-half-up gives 58, but the binary64 quotient 23 / 40 is
slightly below 0.575 and the scorer yields 57. -/
theorem sessionScorer_accuracy_cex :
    (sessionScorer []).totalCount = 0 ∧
    (sessionScorer []).accuracyPercent = none ∧
    (sessionScorer []).accuracyPercent ≠ some 0 ∧
    (sessionScorer (List.replicate 23 true ++ List.replicate 17 false)).correctCount = 23 ∧
    (sessionScorer (List.replicate 23 true ++ List.replicate 17 false)).totalCount = 40 ∧
    (sessionScorer (List.replicate 23 true ++ List.replicate 17 false)).accuracyPercent =
      some 57 ∧
    specRoundHalfUp (100 * 23) 40 = 58 := by
  decide

/-- C8 (amended): on every nonempty outcome sequence of length at most
100 (the practice screen presents 5 questions per session) whose exact
percentage is not an exact half-integer, the scorer agrees with the
specification contract: count of true outcomes, sequence length, and
round-half-up of the real-valued percentage. At exact half-integer
percentages the floating-point quotient may land below the half, and for
an empty sequence the accuracy is the rounded image of `NaN`, not 0. -/
theorem sessionScorer_matches_spec_off_ties (outcomes : List Bool)
    (h1 : outcomes ≠ []) (h2 : outcomes.length ≤ 100)
    (h3 : 2 * (100 * outcomes.count true % outcomes.length) ≠ outcomes.length) :
    sessionScorer outcomes = sessionScorerSpec outcomes := by
  have hlen : outcomes.length ≠ 0 := fun hl => h1 (List.length_eq_zero.mp hl)
  have hcount : (outcomes.filter (fun a => a)).length = outcomes.count true :=
    filter_self_length_eq_count outcomes
  have hc := List.count_le_length true outcomes
  have hround := jsPercent_agrees_off_ties outcomes.length (by omega)
    (outcomes.count true) (by omega) (Nat.pos_of_ne_zero hlen) h3
  simp [sessionScorer, sessionScorerSpec, jsPercentRound, hcount, hlen, hround]

/-- C8 (witness): the scenario of the specification, outcomes
`[true, false, true, true, false]`, scoring 3 of 5 for 60 percent
(percentage 60 exactly, not a half-integer). -/
theorem sessionScorer_matches_spec_off_ties_witness :
    sessionScorer [true, false, true, true, false] =
      sessionScorerSpec [true, false, true, true, false] ∧
    sessionScorer [true, false, true, true, false] =
      { correctCount := 3, totalCount := 5, accuracyPercent := some 60 } :=
  ⟨sessionScorer_matches_spec_off_ties _ (by decide) (by decide) (by decide),
   by decide⟩

/-- C10: a failed Answer Record write during `submitAnswer` is caught and
only logged: the resulting screen state is identical to the one after a
successful write, the answer has been appended to the in-memory list, the
explanation is shown, and the session record later produced by
`completeSession` is therefore the same whether or not the write
succeeded. -/
theorem submitAnswer_write_failure_does_not_affect_session
    (s : PracticeState) (w : Bool) (sel : String) (q : Question)
    (prior : Option UserRecord) (today yesterdayStr : String)
    (h1 : s.selectedAnswer = some sel)
    (h2 : s.questions[s.currentQuestionIndex]? = some q) :
    (submitAnswer s w).state = (submitAnswer s true).state ∧
    (submitAnswer s w).state.userAnswers = s.userAnswers ++
      [{ questionId := q.id, selectedAnswer := sel,
         isCorrect := sel == q.correctAnswer }] ∧
    (submitAnswer s w).state.showExplanation = true ∧
    completeSession (submitAnswer s w).state prior today yesterdayStr =
      completeSession (submitAnswer s true).state prior today yesterdayStr := by
  simp [submitAnswer, h1, h2]

/-- C10 (witness): a concrete one-question state with the write failing. -/
theorem submitAnswer_write_failure_does_not_affect_session_witness :
    (submitAnswer
        { questions := [{ id := "q1", correctAnswer := "A", category := "People" }],
          currentQuestionIndex := 0, selectedAnswer := some "A",
          showExplanation := false, userAnswers := [] } false).state =
      (submitAnswer
        { questions := [{ id := "q1", correctAnswer := "A", category := "People" }],
          currentQuestionIndex := 0, selectedAnswer := some "A",
          showExplanation := false, userAnswers := [] } true).state ∧
    (submitAnswer
        { questions := [{ id := "q1", correctAnswer := "A", category := "People" }],
          currentQuestionIndex := 0, selectedAnswer := some "A",
          showExplanation := false, userAnswers := [] } false).state.userAnswers =
      [] ++ [{ questionId := "q1", selectedAnswer := "A", isCorrect := "A" == "A" }] ∧
    (submitAnswer
        { questions := [{ id := "q1", correctAnswer := "A", category := "People" }],
          currentQuestionIndex := 0, selectedAnswer := some "A",
          showExplanation := false, userAnswers := [] } false).state.showExplanation = true ∧
    completeSession
        (submitAnswer
          { questions := [{ id := "q1", correctAnswer := "A", category := "People" }],
            currentQuestionIndex := 0, selectedAnswer := some "A",
            showExplanation := false, userAnswers := [] } false).state
        none "2024-03-01" "2024-02-29" =
      completeSession
        (submitAnswer
          { questions := [{ id := "q1", correctAnswer := "A", category := "People" }],
            currentQuestionIndex := 0, selectedAnswer := some "A",
            showExplanation := false, userAnswers := [] } true).state
        none "2024-03-01" "2024-02-29" :=
  submitAnswer_write_failure_does_not_affect_session _ false "A"
    { id := "q1", correctAnswer := "A", category := "People" } none
    "2024-03-01" "2024-02-29" rfl rfl

/-! Supporting lemmas about the category aggregation fold. -/

theorem sum_bumpCategory (m : List (String × Nat × Nat)) (cat : String) (inc : Nat) :
    ((bumpCategory m cat inc).map (fun e => e.2.1)).sum =
      ((m.map (fun e => e.2.1)).sum) + 1 := by
  induction m with
  | nil => simp [bumpCategory]
  | cons e rest ih =>
    by_cases hc : e.1 = cat
    · simp only [bumpCategory, if_pos hc, List.map_cons, List.sum_cons]
      omega
    · simp only [bumpCategory, if_neg hc, List.map_cons, List.sum_cons, ih]
      omega

theorem sum_addAnswer (questions : List Question) (m : List (String × Nat × Nat))
    (a : AnswerRecord) :
    ((addAnswer questions m a).map (fun e => e.2.1)).sum =
      ((m.map (fun e => e.2.1)).sum) + (if answerFound questions a then 1 else 0) := by
  cases hl : questionLookup questions a.questionId with
  | none => simp [addAnswer, answerFound, hl]
  | some q => simp [addAnswer, answerFound, hl, sum_bumpCategory]

theorem sum_entries (questions : List Question) (answers : List AnswerRecord) :
    ∀ m, (((answers.foldl (addAnswer questions) m).map (fun e => e.2.1)).sum) =
      ((m.map (fun e => e.2.1)).sum) + answers.countP (answerFound questions) := by
  induction answers with
  | nil => intro m; simp
  | cons a rest ih =>
    intro m
    rw [List.foldl_cons, ih, List.countP_cons, sum_addAnswer]
    omega

theorem pos_bumpCategory (m : List (String × Nat × Nat)) (cat : String) (inc : Nat)
    (h : ∀ e ∈ m, 0 < e.2.1) : ∀ e ∈ bumpCategory m cat inc, 0 < e.2.1 := by
  induction m with
  | nil =>
    intro e he
    simp [bumpCategory] at he
    subst he
    exact Nat.one_pos
  | cons x rest ih =>
    intro e he
    by_cases hc : x.1 = cat
    · simp only [bumpCategory, if_pos hc, List.mem_cons] at he
      rcases he with he | he
      · subst he; exact Nat.succ_pos _
      · exact h e (List.mem_cons_of_mem _ he)
    · simp only [bumpCategory, if_neg hc, List.mem_cons] at he
      rcases he with he | he
      · subst he; exact h _ (List.mem_cons_self _ _)
      · exact ih (fun e' he' => h e' (List.mem_cons_of_mem _ he')) e he

theorem pos_addAnswer (questions : List Question) (m : List (String × Nat × Nat))
    (a : AnswerRecord) (hm : ∀ e ∈ m, 0 < e.2.1) :
    ∀ e ∈ addAnswer questions m a, 0 < e.2.1 := by
  cases hl : questionLookup questions a.questionId with
  | none => simpa [addAnswer, hl] using hm
  | some q =>
    intro e he
    exact pos_bumpCategory m q.category _ hm e (by simpa [addAnswer, hl] using he)

theorem pos_entries (questions : List Question) (answers : List AnswerRecord) :
    ∀ m, (∀ e ∈ m, 0 < e.2.1) →
      ∀ e ∈ answers.foldl (addAnswer questions) m, 0 < e.2.1 := by
  induction answers with
  | nil => intro m hm e he; exact hm e he
  | cons a rest ih =>
    intro m hm e he
    rw [List.foldl_cons] at he
    exact ih (addAnswer questions m a) (pos_addAnswer questions m a hm) e he

theorem le_bumpCategory (m : List (String × Nat × Nat)) (cat : String) (inc : Nat)
    (hinc : inc ≤ 1) (h : ∀ e ∈ m, e.2.2 ≤ e.2.1) :
    ∀ e ∈ bumpCategory m cat inc, e.2.2 ≤ e.2.1 := by
  induction m with
  | nil =>
    intro e he
    simp [bumpCategory] at he
    subst he
    exact hinc
  | cons x rest ih =>
    intro e he
    by_cases hc : x.1 = cat
    · simp only [bumpCategory, if_pos hc, List.mem_cons] at he
      rcases he with he | he
      · subst he
        have := h x (List.mem_cons_self _ _)
        simp only
        omega
      · exact h e (List.mem_cons_of_mem _ he)
    · simp only [bumpCategory, if_neg hc, List.mem_cons] at he
      rcases he with he | he
      · subst he; exact h _ (List.mem_cons_self _ _)
      · exact ih (fun e' he' => h e' (List.mem_cons_of_mem _ he')) e he

theorem le_addAnswer (questions : List Question) (m : List (String × Nat × Nat))
    (a : AnswerRecord) (hm : ∀ e ∈ m, e.2.2 ≤ e.2.1) :
    ∀ e ∈ addAnswer questions m a, e.2.2 ≤ e.2.1 := by
  cases hl : questionLookup questions a.questionId with
  | none => simpa [addAnswer, hl] using hm
  | some q =>
    intro e he
    refine le_bumpCategory m q.category _ ?_ hm e (by simpa [addAnswer, hl] using he)
    by_cases h0 : 0 < a.isCorrect <;> simp [h0]

theorem le_entries (questions : List Question) (answers : List AnswerRecord) :
    ∀ m, (∀ e ∈ m, e.2.2 ≤ e.2.1) →
      ∀ e ∈ answers.foldl (addAnswer questions) m, e.2.2 ≤ e.2.1 := by
  induction answers with
  | nil => intro m hm e he; exact hm e he
  | cons a rest ih =>
    intro m hm e he
    rw [List.foldl_cons] at he
    exact ih (addAnswer questions m a) (le_addAnswer questions m a hm) e he

/-- C9 (counterexample): 40 answers to one catalogued question, 23 of
them correct. The exact percentage is 57.5, so the claimed
`round(100 * correct / total)` is 58, but the aggregator computes the
binary64 `Math.round((23 / 40) * 100)`, whose quotient falls just below
0.575, and emits accuracy 57. -/
theorem categoryStats_float_tie_cex :
    calculateCategoryStats
        (List.replicate 23 { questionId := "q1", isCorrect := 1 } ++
          List.replicate 17 { questionId := "q1", isCorrect := 0 })
        [{ id := "q1", correctAnswer := "A", category := "Integration" }] =
      [{ category := "Integration", total := 40, correct := 23, accuracy := 57 }] ∧
    specRoundHalfUp (100 * 23) 40 = 58 := by
  have hcalc : calculateCategoryStats
      (List.replicate 23 { questionId := "q1", isCorrect := 1 } ++
        List.replicate 17 { questionId := "q1", isCorrect := 0 })
      [{ id := "q1", correctAnswer := "A", category := "Integration" }] =
      (((List.replicate 23 ({ questionId := "q1", isCorrect := 1 } : AnswerRecord) ++
          List.replicate 17 ({ questionId := "q1", isCorrect := 0 } : AnswerRecord)).foldl
        (addAnswer [{ id := "q1", correctAnswer := "A", category := "Integration" }])
        []).map toCategoryStats).mergeSort
        (fun a b => decide (b.total ≤ a.total)) := rfl
  have hentries : ((List.replicate 23 ({ questionId := "q1", isCorrect := 1 } : AnswerRecord) ++
      List.replicate 17 ({ questionId := "q1", isCorrect := 0 } : AnswerRecord)).foldl
      (addAnswer [{ id := "q1", correctAnswer := "A", category := "Integration" }])
      []).map toCategoryStats =
      [{ category := "Integration", total := 40, correct := 23, accuracy := 57 }] := by
    decide
  refine ⟨?_, by decide⟩
  rw [hcalc, hentries, List.mergeSort_singleton]

/-- C9 (amended): for every answer log and catalog, the Category
Aggregator output is sorted by `total` descending, the sum of the `total`
fields equals the number of answers whose referenced question is found in
the catalog (hence is at most the number of answers, with equality
exactly when every referenced question is found — missing questions are
skipped without error), and every emitted category has
`0 < total`, `correct <= total`, and accuracy the binary64
`Math.round((correct / total) * 100)`, which equals round-half-up of
`100 * correct / total` whenever `total <= 100` (guaranteed by the
100-answer fetch cap) and the exact percentage is not an exact
half-integer. -/
theorem calculateCategoryStats_spec (answers : List AnswerRecord)
    (questions : List Question) :
    List.Pairwise (fun a b => b.total ≤ a.total)
      (calculateCategoryStats answers questions) ∧
    sumTotals (calculateCategoryStats answers questions) =
      answers.countP (answerFound questions) ∧
    sumTotals (calculateCategoryStats answers questions) ≤ answers.length ∧
    (sumTotals (calculateCategoryStats answers questions) = answers.length ↔
      ∀ a ∈ answers, answerFound questions a) ∧
    ∀ e ∈ calculateCategoryStats answers questions,
      0 < e.total ∧ e.correct ≤ e.total ∧
      e.accuracy = jsPercentRoundPos e.correct e.total ∧
      (e.total ≤ 100 → 2 * (100 * e.correct % e.total) ≠ e.total →
        e.accuracy = specRoundHalfUp (100 * e.correct) e.total) := by
  have hcalc : calculateCategoryStats answers questions =
      ((answers.foldl (addAnswer questions) []).map toCategoryStats).mergeSort
        (fun a b => decide (b.total ≤ a.total)) := rfl
  have hperm := List.mergeSort_perm
    ((answers.foldl (addAnswer questions) []).map toCategoryStats)
    (fun a b => decide (b.total ≤ a.total))
  have hsorted : List.Pairwise (fun a b : CategoryStats => b.total ≤ a.total)
      (calculateCategoryStats answers questions) := by
    rw [hcalc]
    have h := @List.sorted_mergeSort CategoryStats
      (fun a b => decide (b.total ≤ a.total))
      (fun a b c h1 h2 => by
        simp only [decide_eq_true_eq] at h1 h2 ⊢
        omega)
      (fun a b => by
        simp only [Bool.or_eq_true, decide_eq_true_eq]
        omega)
      ((answers.foldl (addAnswer questions) []).map toCategoryStats)
    exact h.imp (fun hab => by simpa using hab)
  have hsum : sumTotals (calculateCategoryStats answers questions) =
      answers.countP (answerFound questions) := by
    rw [hcalc]
    unfold sumTotals
    rw [(hperm.map (fun e => e.total)).sum_eq, List.map_map]
    have hcomp : ((answers.foldl (addAnswer questions) []).map
        ((fun e => e.total) ∘ toCategoryStats)) =
        ((answers.foldl (addAnswer questions) []).map (fun e => e.2.1)) := by
      simp [toCategoryStats, Function.comp]
    rw [hcomp, sum_entries]
    simp
  refine ⟨hsorted, hsum, ?_, ?_, ?_⟩
  · rw [hsum]
    exact List.countP_le_length _
  · rw [hsum]
    exact List.countP_eq_length
  · intro e he
    rw [hcalc] at he
    have he2 : e ∈ (answers.foldl (addAnswer questions) []).map toCategoryStats :=
      hperm.mem_iff.mp he
    rcases List.mem_map.mp he2 with ⟨x, hx, rfl⟩
    have hpos : 0 < x.2.1 := pos_entries questions answers [] (by simp) x hx
    have hle : x.2.2 ≤ x.2.1 := le_entries questions answers [] (by simp) x hx
    refine ⟨by simpa [toCategoryStats] using hpos,
      by simpa [toCategoryStats] using hle, ?_, ?_⟩
    · simp [toCategoryStats, if_pos hpos]
    · intro hb ht
      simp only [toCategoryStats] at hb ht ⊢
      rw [if_pos hpos]
      exact jsPercent_agrees_off_ties x.2.1 (by omega) x.2.2 (by omega) hpos ht

end PmpApp
